import Mathlib

/-!
# Verification of the collabs replication runtime against its specification

Shallow embedding of the parts of the `rozek/collabs` sources that the
claims under scrutiny concern:

* `src/src/vector_clock.ts` — the `VectorClock` class (`increment`,
  `isready`, `merge`, `setEntry`);
* `src/client/src/crdts/basic_crdts.ts` — `LwwRegisterBase.receive`;
* `src/client/src/crdt/set/yjs_crdt_sets.ts` — `YjsCrdtSet.receiveInternal`;
* `src/core/src/util/serializers.ts` + `serializers.proto` —
  `CollabIDSerializer`, `DefaultSerializer` (number branch), `int64AsNumber`;
* `src/unnamed/part_000` — `AbstractDoc.idOf`.

JavaScript `Map<string, number>` objects are modelled as association lists
(`List (String × ℕ)`) in insertion order; `Map.get` returns `Option ℕ`
(`none` models `undefined`), `Map.set` updates in place or appends, and
`Map.has` tests `get ≠ undefined`, exactly as the ECMAScript semantics.
-/

namespace Collabs

/-! ## JavaScript `Map` model -/

/-- `Map.get`: the value stored for `k`, or `none` (JS `undefined`). -/
def mapGet {α : Type} : List (String × α) → String → Option α
  | [], _ => none
  | (k', v') :: rest, k => if k' = k then some v' else mapGet rest k

/-- `Map.set`: update the existing entry in place, else append. -/
def mapSet {α : Type} : List (String × α) → String → α → List (String × α)
  | [], k, v => [(k, v)]
  | (k', v') :: rest, k, v =>
      if k' = k then (k', v) :: rest else (k', v') :: mapSet rest k v

/-- `Map.delete`: remove the entry for `k`, preserving the order of the rest. -/
def mapDelete {α : Type} : List (String × α) → String → List (String × α)
  | [], _ => []
  | (k', v') :: rest, k =>
      if k' = k then rest else (k', v') :: mapDelete rest k

/-- `Map.has`. -/
def mapHas {α : Type} (m : List (String × α)) (k : String) : Bool :=
  (mapGet m k).isSome

/-- `Map.keys()` as a list (insertion order). -/
def mapKeys {α : Type} (m : List (String × α)) : List String :=
  m.map Prod.fst

/-! ## `VectorClock` (src/src/vector_clock.ts) -/

/-- The `VectorClock` class: a replica id `uid` and the map
`vectorMap : Map<any, number>` from replica ids to counters. -/
structure VectorClock where
  uid : String
  vectorMap : List (String × ℕ)
  deriving DecidableEq, Repr

namespace VectorClock

/-- `new VectorClock(replicaID)`: the map holds the single entry
`(replicaID, 0)`. -/
def init (replicaID : String) : VectorClock :=
  ⟨replicaID, [(replicaID, 0)]⟩

/-- `increment()`: read the own-uid entry; if it is present (`!== undefined`),
replace it with `oldValue + 1`; otherwise do nothing. -/
def increment (c : VectorClock) : VectorClock :=
  match mapGet c.vectorMap c.uid with
  | some oldValue => ⟨c.uid, mapSet c.vectorMap c.uid (oldValue + 1)⟩
  | none => c

/-- `setEntry(someUid, clockValue)`. -/
def setEntry (c : VectorClock) (someUid : String) (clockValue : ℕ) : VectorClock :=
  ⟨c.uid, mapSet c.vectorMap someUid clockValue⟩

/-- The JS test `this.vectorMap.get(otherUid) === otherVectorMap.get(otherUid)! - 1`.
`undefined === x` is false for every number `x`, `NaN` (from `undefined - 1`)
compares unequal to everything, and for naturals `a = c - 1` over ℤ is
`a + 1 = c`, which is also false when `c = 0` (JS: `a === -1` is false). -/
def jsEqPred (a c : Option ℕ) : Bool :=
  match a, c with
  | some a', some c' => a' + 1 == c'
  | _, _ => false

/-- The JS test `x! < y!` on two `Map.get` results: a comparison involving
`undefined` (hence `NaN`) is false. -/
def jsLt (a b : Option ℕ) : Bool :=
  match a, b with
  | some a', some b' => a' < b'
  | _, _ => false

/-- The body of `isready`'s `for (let id of otherVectorMap.keys())` loop for a
single key: `ready` is cleared when `id !== otherUid` and either the local map
lacks the entry or its value is below the other map's value. -/
def readyKeyOk (self other : VectorClock) (id : String) : Bool :=
  if id ≠ other.uid ∧ ¬ mapHas self.vectorMap id then false
  else if id ≠ other.uid ∧ jsLt (mapGet self.vectorMap id) (mapGet other.vectorMap id) then false
  else true

/-- `isready(vc)`. The outer guard `this.vectorMap.get(otherUid) !== null` is
true for every `Map.get` result (`undefined !== null`), so the source's `else`
branch is unreachable and only the `then` branch is modelled. Inside it, the
counter test `jsEqPred` guards the per-key loop, which clears `ready` but
never restores it — i.e. it is a conjunction over the other clock's keys. -/
def isready (self other : VectorClock) : Bool :=
  if jsEqPred (mapGet self.vectorMap other.uid) (mapGet other.vectorMap other.uid) then
    (mapKeys other.vectorMap).all (readyKeyOk self other)
  else
    false

/-- One step of `merge`'s loop for key `id` of the other map: absent keys are
inserted with the other map's value, present keys are replaced by the max. -/
def mergeStep (other : List (String × ℕ)) (m : List (String × ℕ)) (id : String) :
    List (String × ℕ) :=
  if ¬ mapHas m id then
    mapSet m id ((mapGet other id).getD 0)
  else
    mapSet m id (max ((mapGet m id).getD 0) ((mapGet other id).getD 0))

/-- `merge(vc)`: fold `mergeStep` over `otherVectorMap.keys()`. The `.getD 0`
models the TS non-null assertions `...get(id)!`; at every use site the lookup
succeeds (`id` ranges over the keys of the very map being read, and the local
read is guarded by `has`). -/
def merge (self other : VectorClock) : VectorClock :=
  ⟨self.uid, (mapKeys other.vectorMap).foldl (mergeStep other.vectorMap) self.vectorMap⟩

end VectorClock

/-- The states a `VectorClock` object can reach from its constructor by any
sequence of `increment`, `merge` (with an arbitrary other clock), and
`setEntry` calls. -/
inductive VectorClock.Reachable : VectorClock → Prop
  | init (replicaID : String) : VectorClock.Reachable (VectorClock.init replicaID)
  | increment {c : VectorClock} :
      VectorClock.Reachable c → VectorClock.Reachable c.increment
  | merge {c : VectorClock} (other : VectorClock) :
      VectorClock.Reachable c → VectorClock.Reachable (c.merge other)
  | setEntry {c : VectorClock} (someUid : String) (clockValue : ℕ) :
      VectorClock.Reachable c → VectorClock.Reachable (c.setEntry someUid clockValue)

/-! ## `CausalTimestamp` (src/client/src/network, consumed by the CRDTs)

The CRDT code reads a received timestamp only through `getSender()`,
`getSenderCounter()`, `asVectorClock()` and `isLocal()`; it is modelled as a
record of those four observations. -/

structure CausalTimestamp where
  sender : String
  senderCounter : ℕ
  vc : List (String × ℕ)
  isLocal : Bool
  deriving DecidableEq, Repr

/-! ## `LwwRegisterBase` (src/client/src/crdts/basic_crdts.ts) -/

/-- `LwwState<T>`: the register's value together with the metadata of the
write that produced it (`sender`, `counter`, `time`; `null` is `none`).
`LwwRegisterBase`'s constructor passes `new LwwState(initialValue, null, -1,
null)`, hence `counter : ℤ`. -/
structure LwwState (V : Type) where
  value : V
  sender : Option String
  counter : ℤ
  time : Option ℤ
  deriving DecidableEq, Repr

/-- The state `super(new LwwState(initialValue, null, -1, null))` of a fresh
`LwwRegisterBase`. -/
def LwwState.initial {V : Type} (initialValue : V) : LwwState V :=
  ⟨initialValue, none, -1, none⟩

/-- A decoded `LwwMessage`: the (deserialized) written value and the sender's
`Date.now()` wall-clock time. -/
structure LwwMessage (V : Type) where
  value : V
  time : ℤ
  deriving DecidableEq, Repr

/-- The causal test `vcEntry !== undefined && vcEntry >= this.state.counter`
applied to the incoming timestamp's vector clock at the stored sender. -/
def lwwCausallyAtLeast (ts : CausalTimestamp) (s : String) (c : ℤ) : Bool :=
  match mapGet ts.vc s with
  | some vcEntry => decide ((vcEntry : ℤ) ≥ c)
  | none => false

/-- JS `decoded.time > this.state.time!`: when `state.time` is `null` (never
the case on the path that reads it, since `sender` and `time` are set
together) the comparison coerces `null` to `0`. -/
def jsTimeGt (a : ℤ) (b : Option ℤ) : Bool :=
  match b with
  | some t => decide (a > t)
  | none => decide (a > 0)

/-- JS `decoded.time == this.state.time`: a number is loosely equal to `null`
never. -/
def jsTimeEq (a : ℤ) (b : Option ℤ) : Bool :=
  match b with
  | some t => a == t
  | none => false

/-- JS `timestamp.getSender() > this.state.sender!` (string comparison; with a
`null` stored sender — unreachable, the branch is guarded by
`state.sender !== null` — the comparison is false). -/
def jsSenderGt (a : String) (b : Option String) : Bool :=
  match b with
  | some s => decide (a > s)
  | none => false

/-- `LwwRegisterBase.receive(timestamp, message)`: returns the updated state
and the boolean `changed` that the method returns. -/
def lwwReceive {V : Type} [DecidableEq V] (st : LwwState V) (ts : CausalTimestamp)
    (msg : LwwMessage V) : LwwState V × Bool :=
  -- See if it is causally greater than the current state.
  let overwriteCausal : Bool :=
    match st.sender with
    | none => true  -- initial element
    | some s => lwwCausallyAtLeast ts s st.counter
  -- If it is concurrent, compare timestamps, with the sender as tiebreaker.
  let overwrite : Bool :=
    if overwriteCausal then true
    else if jsTimeGt msg.time st.time then true
    else if jsTimeEq msg.time st.time then jsSenderGt ts.sender st.sender
    else false
  if overwrite then
    (⟨msg.value, some ts.sender, (ts.senderCounter : ℤ), some msg.time⟩,
     decide (st.value ≠ msg.value))
  else (st, false)

/-! ## `YjsCrdtSet` (src/client/src/crdt/set/yjs_crdt_sets.ts) -/

/-- A decoded `YjsCrdtSetMessage` (`decoded.op` together with the field it
selects); any other `op` value hits the `default` branch and throws. -/
inductive YjsDecodedOp where
  | create (create : ℕ)
  | delete (name : String)
  | unknown (op : String)
  deriving DecidableEq, Repr

/-- The observable content of the events `receiveInternal` emits (each event
carries the affected value Crdt, identified here by its name). -/
inductive YjsEvent where
  | valueInit (name : String)
  | add (name : String)
  | delete (name : String)
  deriving DecidableEq, Repr

/-- The `YjsCrdtSet`'s own state: the `children` map. -/
structure YjsCrdtSetState (σ : Type) where
  children : List (String × σ)
  deriving DecidableEq, Repr

/-- Modelled from the spec: the child name
`arrayAsString(YjsCrdtSet.nameSerializer.serialize([timestamp.getSender(),
decoded.create]))`. `DefaultElementSerializer` and `arrayAsString` (client
`util`, not under src/) are modelled as a concrete injective encoding of the
pair, matching the spec: "names are deterministically derived from the
creating op's `(senderID, senderCounter, localIndex)`". -/
def yjsChildName (sender : String) (create : ℕ) : String :=
  sender ++ "," ++ toString create

/-- `YjsCrdtSet.receiveInternal(targetPath, timestamp, message)`.

`σ` is the value-Crdt state type, `μ` the raw message type; `decode` is
`YjsCrdtSetMessage.decode` and `childReceive` the child's `receive` (the
source mutates the child object in place; here the child's new state replaces
the old one under the same key). The `ourCreatedCrdt` bookkeeping, consumed
only by the local `create()` wrapper, and the events emitted by the child are
not modelled. Errors thrown are returned as `Except.error` of the thrown
message. -/
def yjsReceiveInternal {σ μ : Type} (valueCrdtConstructor : String → σ)
    (decode : μ → YjsDecodedOp)
    (childReceive : σ → List String → CausalTimestamp → μ → σ)
    (st : YjsCrdtSetState σ) (targetPath : List String) (ts : CausalTimestamp)
    (message : μ) : Except String (YjsCrdtSetState σ × List YjsEvent) :=
  match targetPath with
  | [] =>
      match decode message with
      | .create c =>
          let newCrdt := valueCrdtConstructor ts.sender
          -- Add as child with "[sender, counter]" as id.
          let name := yjsChildName ts.sender c
          if mapHas st.children name then
            .error ("Duplicate newCrdt name: \"" ++ name ++ "\"")
          else
            .ok (⟨mapSet st.children name newCrdt⟩,
                 [YjsEvent.valueInit name, YjsEvent.add name])
      | .delete dname =>
          match mapGet st.children dname with
          | some _ => .ok (⟨mapDelete st.children dname⟩, [YjsEvent.delete dname])
          | none => .ok (st, [])
      | .unknown op => .error ("Unknown decoded.op: " ++ op)
  | x :: xs =>
      -- Message for an existing child; `targetPath[targetPath.length - 1]`.
      let name := (x :: xs).getLast (List.cons_ne_nil x xs)
      match mapGet st.children name with
      | none =>
          -- Assume it is a message for a deleted (hence frozen) child.
          if ts.isLocal then
            .error ("Operation performed on deleted " ++
              "(hence frozen) child of YjsCrdtSet, name: " ++ name)
          else
            .ok (st, [])  -- ignore
      | some child =>
          .ok (⟨mapSet st.children name
                  (childReceive child (x :: xs).dropLast ts message)⟩, [])

/-! ## `CollabIDSerializer` (src/core/src/util/serializers.ts + .proto) -/

/-- `CollabID`: the `namePath`, the sequence of edge labels of a Collab. -/
structure CollabID where
  namePath : List String
  deriving DecidableEq, Repr

/-- The runtime value `CollabIDSerializer.deserialize` actually produces: the
plain object `{ namePath: decoded.namePath }`, whose `namePath` property may
be `undefined` (`none`). -/
structure CollabIDRuntimeValue where
  namePath : Option (List String)
  deriving DecidableEq, Repr

/-- `CollabIDMessage` as generated by protobuf.js from
src/core/src/util/serializers.proto: the single declared field is
`repeated string collabIDPath = 1`. The generated constructor (used by
`create`) copies every property of its argument onto the instance — including
properties that are not declared fields, such as the `namePath` property that
`CollabIDSerializer.serialize` passes — while `encode` and `decode` touch
declared fields only. -/
structure CollabIDMessage where
  collabIDPath : List String
  namePath : Option (List String)
  deriving DecidableEq, Repr

/-- `CollabIDMessage.create({ namePath: ... })`: the declared field
`collabIDPath` keeps its default `[]`; the undeclared `namePath` property is
stored on the object. -/
def CollabIDMessage.create (namePathProp : List String) : CollabIDMessage :=
  ⟨[], some namePathProp⟩

/-- `CollabIDMessage.encode(message).finish()`: the wire carries only the
declared field `collabIDPath` (modelled as the list itself; the byte-level
repeated-string framing is a bijective encoding of it). -/
def CollabIDMessage.encode (m : CollabIDMessage) : List String :=
  m.collabIDPath

/-- `CollabIDMessage.decode(message)`: populates declared fields only; the
decoded object has no `namePath` property (`undefined`). -/
def CollabIDMessage.decode (wire : List String) : CollabIDMessage :=
  ⟨wire, none⟩

namespace CollabIDSerializer

/-- `CollabIDSerializer.serialize(value)`. -/
def serialize (value : CollabID) : List String :=
  (CollabIDMessage.create value.namePath).encode

/-- `CollabIDSerializer.deserialize(message)`: returns
`{ namePath: decoded.namePath }`. -/
def deserialize (message : List String) : CollabIDRuntimeValue :=
  ⟨(CollabIDMessage.decode message).namePath⟩

end CollabIDSerializer

/-! ## `AbstractDoc.idOf` (src/unnamed/part_000) -/

/-- A Collab as observed by `AbstractDoc.idOf`: its `runtime` reference
(object identity modelled as a numeric id, compared by `!==`) and its path. -/
structure CollabNode where
  runtime : ℕ
  namePath : List String
  deriving DecidableEq, Repr

/-- An `AbstractDoc`: it wraps a `runtime`. -/
structure AbstractDoc where
  runtime : ℕ
  deriving DecidableEq, Repr

/-- Modelled from the spec: `CRuntime.idOf` (the runtime class is not under
src/) returns the Collab's CollabID — "The path (sequence of edge labels) of
a Collab". -/
def runtimeIdOf (collab : CollabNode) : CollabID :=
  ⟨collab.namePath⟩

/-- `AbstractDoc.idOf(collab)`: throws when the Collab belongs to a different
runtime, else defers to `this.runtime.idOf(collab)`. -/
def AbstractDoc.idOf (doc : AbstractDoc) (collab : CollabNode) :
    Except String CollabID :=
  if collab.runtime ≠ doc.runtime then
    .error "idOf called with Collab from different AbstractDoc"
  else
    .ok (runtimeIdOf collab)

/-! ## `DefaultSerializer` number branch (src/core/src/util/serializers.ts) -/

/-- JS `Number.isSafeInteger` on the integer domain the claim quantifies
over: the magnitude bound `|n| ≤ 2^53 − 1`. -/
def jsIsSafeInteger (n : ℤ) : Bool :=
  n.natAbs ≤ 2 ^ 53 - 1

/-- Protobuf `sint64` zigzag encoding (the varint byte framing is a bijective
encoding of the resulting uint64 and is not modelled); arithmetic is mod
`2^64` as for a 64-bit field. -/
def zigzag64 (n : ℤ) : ℕ :=
  (if 0 ≤ n then 2 * n else -2 * n - 1).toNat % 2 ^ 64

/-- Protobuf `sint64` zigzag decoding. -/
def unzigzag64 (z : ℕ) : ℤ :=
  if z % 2 = 0 then ((z / 2 : ℕ) : ℤ) else -((z : ℤ) + 1) / 2

/-- The `DefaultSerializerMessage` alternatives reachable from a `number`
value: `sint64 intValue = 2` (stored zigzag-encoded) or
`double doubleValue = 3` (IEEE-754 rounding of the non-safe number is not
modelled; this branch is never taken for a safe integer). -/
inductive DSNumberMessage where
  | intValue (wire : ℕ)
  | doubleValue (num : ℤ)
  deriving DecidableEq, Repr

/-- The `case "number"` branch of `DefaultSerializer.serialize`:
`Number.isSafeInteger(value) ? { intValue: value } : { doubleValue: value }`,
followed by the protobuf encoding of the chosen field. -/
def defaultSerializeNumber (n : ℤ) : DSNumberMessage :=
  if jsIsSafeInteger n then .intValue (zigzag64 n) else .doubleValue n

/-- `int64AsNumber` (serializers.ts): converts the decoded sint64 (`Long`) to
a JS number via `Long.toNumber` (external library), per the source comment
"For safe integers, this is exact"; it is modelled as the exact conversion,
and used only at safe-integer range. -/
def int64AsNumber (n : ℤ) : ℤ :=
  n

/-- The corresponding branches of `DefaultSerializer.deserialize`:
`intValue` is passed through `int64AsNumber`, `doubleValue` is returned as
is. -/
def defaultDeserializeNumber (m : DSNumberMessage) : ℤ :=
  match m with
  | .intValue wire => int64AsNumber (unzigzag64 wire)
  | .doubleValue num => num

/-! ## Theorems -/

theorem mapGet_mapSet {α : Type} (m : List (String × α)) (k k' : String) (v : α) :
    mapGet (mapSet m k v) k' = if k = k' then some v else mapGet m k' := by
  induction m with
  | nil =>
      by_cases h : k = k' <;> simp [mapSet, mapGet, h]
  | cons hd tl ih =>
      obtain ⟨k₀, v₀⟩ := hd
      by_cases h₀ : k₀ = k
      · subst h₀
        by_cases h₁ : k₀ = k' <;> simp [mapSet, mapGet, h₁]
      · by_cases h₁ : k₀ = k'
        · subst h₁
          have hk : ¬ k = k₀ := fun h => h₀ h.symm
          simp [mapSet, mapGet, h₀, hk]
        · simp [mapSet, mapGet, h₀, h₁, ih]

theorem mapGet_isSome_iff_mem_keys {α : Type} (m : List (String × α)) (k : String) :
    (mapGet m k).isSome ↔ k ∈ mapKeys m := by
  induction m with
  | nil => simp [mapGet, mapKeys]
  | cons hd tl ih =>
      obtain ⟨k₀, v₀⟩ := hd
      by_cases h : k₀ = k
      · subst h; simp [mapGet, mapKeys]
      · simp [mapGet, mapKeys, h, ih]
        intro hk; exact absurd hk.symm h

theorem mapGet_eq_none_of_not_mem_keys {α : Type} (m : List (String × α))
    (k : String) (h : k ∉ mapKeys m) : mapGet m k = none := by
  cases hm : mapGet m k with
  | none => rfl
  | some v =>
      exact absurd ((mapGet_isSome_iff_mem_keys m k).1 (by simp [hm])) h

theorem mapGet_mergeStep (other m : List (String × ℕ)) (k₀ k : String) :
    mapGet (VectorClock.mergeStep other m k₀) k =
      if k₀ = k then
        some (max ((mapGet m k).getD 0) ((mapGet other k).getD 0))
      else mapGet m k := by
  unfold VectorClock.mergeStep
  by_cases hk : k₀ = k
  · subst hk
    by_cases h : mapHas m k₀
    · simp [h, mapGet_mapSet]
    · have hnone : mapGet m k₀ = none := by
        unfold mapHas at h
        cases hmg : mapGet m k₀ with
        | none => rfl
        | some v => rw [hmg] at h; simp at h
      simp [h, mapGet_mapSet, hnone]
  · by_cases h : mapHas m k₀ <;> simp [h, mapGet_mapSet, hk]

theorem mapGet_merge_fold (other : List (String × ℕ)) (ks : List String)
    (m : List (String × ℕ)) (k : String) :
    mapGet (ks.foldl (VectorClock.mergeStep other) m) k =
      if k ∈ ks then
        some (max ((mapGet m k).getD 0) ((mapGet other k).getD 0))
      else mapGet m k := by
  induction ks generalizing m with
  | nil => simp
  | cons k₀ ks ih =>
      rw [List.foldl_cons, ih, mapGet_mergeStep]
      by_cases hk : k₀ = k
      · subst hk
        by_cases hks : k₀ ∈ ks
        · simp [hks, max_assoc]
        · simp [hks]
      · have hk' : ¬ k = k₀ := fun h => hk h.symm
        by_cases hks : k ∈ ks <;> simp [hks, hk, hk']

/-- C3: after `VectorClock.merge(other)` the local map's entry for every key
present in either map is the element-wise maximum of the two previous entries
(a key absent from one side contributing that side's value as 0), and no key
present before the merge is removed (a key is present afterwards iff it was
present in either map). -/
theorem vectorClock_merge_elementwise_max (self other : VectorClock) (k : String) :
    mapGet (self.merge other).vectorMap k =
      (if mapHas self.vectorMap k ∨ mapHas other.vectorMap k then
        some (max ((mapGet self.vectorMap k).getD 0)
                  ((mapGet other.vectorMap k).getD 0))
      else none) := by
  show mapGet ((mapKeys other.vectorMap).foldl
      (VectorClock.mergeStep other.vectorMap) self.vectorMap) k = _
  rw [mapGet_merge_fold]
  by_cases hk : k ∈ mapKeys other.vectorMap
  · have ho : mapHas other.vectorMap k := (mapGet_isSome_iff_mem_keys _ _).2 hk
    simp [hk, ho]
  · have ho : mapGet other.vectorMap k = none :=
      mapGet_eq_none_of_not_mem_keys _ _ hk
    have ho' : ¬ mapHas other.vectorMap k = true := by simp [mapHas, ho]
    cases hs : mapGet self.vectorMap k with
    | none => simp [hk, hs, mapHas, ho]
    | some v => simp [hk, hs, mapHas, ho]

/-- C4: when the own-uid entry is present, `VectorClock.increment()` raises it
by exactly 1, leaves every other entry unchanged, and no entry decreases. -/
theorem vectorClock_increment_frame (c : VectorClock) (v : ℕ)
    (h : mapGet c.vectorMap c.uid = some v) :
    mapGet c.increment.vectorMap c.uid = some (v + 1)
    ∧ (∀ k, k ≠ c.uid → mapGet c.increment.vectorMap k = mapGet c.vectorMap k)
    ∧ (∀ k w, mapGet c.vectorMap k = some w →
        ∃ w', mapGet c.increment.vectorMap k = some w' ∧ w ≤ w') := by
  have hinc : c.increment = ⟨c.uid, mapSet c.vectorMap c.uid (v + 1)⟩ := by
    unfold VectorClock.increment
    rw [h]
  refine ⟨?_, ?_, ?_⟩
  · rw [hinc]
    simp [mapGet_mapSet]
  · intro k hk
    rw [hinc]
    simp only [mapGet_mapSet]
    rw [if_neg (fun hh => hk hh.symm)]
  · intro k w hw
    by_cases hk : k = c.uid
    · subst hk
      have hwv : w = v := Option.some.inj (hw.symm.trans h)
      subst hwv
      exact ⟨w + 1, by rw [hinc]; simp [mapGet_mapSet], Nat.le_succ w⟩
    · refine ⟨w, ?_, le_refl w⟩
      rw [hinc]
      simp only [mapGet_mapSet]
      rw [if_neg (fun hh => hk hh.symm), hw]

/-- C4 witness: incrementing the constructor state `new VectorClock("a")`
takes the own entry from 0 to 1. -/
theorem vectorClock_increment_frame_witness :
    mapGet (VectorClock.init "a").increment.vectorMap "a" = some 1 :=
  (vectorClock_increment_frame (VectorClock.init "a") 0 (by decide)).1

/-- C9: every `VectorClock` reachable from the constructor by `increment`,
`merge` and `setEntry` keeps an entry for its own uid, and consequently
`increment` always takes its updating branch. -/
theorem vectorClock_reachable_own_entry (c : VectorClock)
    (h : VectorClock.Reachable c) :
    ∃ v, mapGet c.vectorMap c.uid = some v ∧
      c.increment = ⟨c.uid, mapSet c.vectorMap c.uid (v + 1)⟩ := by
  have inv : ∃ v, mapGet c.vectorMap c.uid = some v := by
    induction h with
    | init replicaID => exact ⟨0, by simp [VectorClock.init, mapGet]⟩
    | @increment c' _ ih =>
        obtain ⟨v, hv⟩ := ih
        have hinc : c'.increment = ⟨c'.uid, mapSet c'.vectorMap c'.uid (v + 1)⟩ := by
          unfold VectorClock.increment
          rw [hv]
        rw [hinc]
        exact ⟨v + 1, by simp [mapGet_mapSet]⟩
    | @merge c' other _ ih =>
        obtain ⟨v, hv⟩ := ih
        have hhas : mapHas c'.vectorMap c'.uid = true := by simp [mapHas, hv]
        have huid : (c'.merge other).uid = c'.uid := rfl
        rw [huid, vectorClock_merge_elementwise_max c' other c'.uid,
          if_pos (Or.inl hhas)]
        exact ⟨_, rfl⟩
    | @setEntry c' someUid clockValue _ ih =>
        obtain ⟨v, hv⟩ := ih
        show ∃ w, mapGet (mapSet c'.vectorMap someUid clockValue) c'.uid = some w
        rw [mapGet_mapSet]
        by_cases hk : someUid = c'.uid
        · exact ⟨clockValue, by rw [if_pos hk]⟩
        · exact ⟨v, by rw [if_neg hk, hv]⟩
  obtain ⟨v, hv⟩ := inv
  refine ⟨v, hv, ?_⟩
  unfold VectorClock.increment
  rw [hv]

/-- C9 witness: the invariant instantiated at the constructor state
`new VectorClock("a")`. -/
theorem vectorClock_reachable_own_entry_witness :
    ∃ v, mapGet (VectorClock.init "a").vectorMap (VectorClock.init "a").uid = some v ∧
      (VectorClock.init "a").increment =
        ⟨(VectorClock.init "a").uid,
          mapSet (VectorClock.init "a").vectorMap (VectorClock.init "a").uid (v + 1)⟩ :=
  vectorClock_reachable_own_entry (VectorClock.init "a")
    (VectorClock.Reachable.init "a")

theorem jsEqPred_eq_true_iff (x y : Option ℕ) :
    VectorClock.jsEqPred x y = true ↔
      ∃ a c, x = some a ∧ y = some c ∧ a + 1 = c := by
  cases x <;> cases y <;> simp [VectorClock.jsEqPred]

theorem readyKeyOk_eq_true_iff (self other : VectorClock) (id : String) (vb : ℕ)
    (hb : mapGet other.vectorMap id = some vb) :
    VectorClock.readyKeyOk self other id = true ↔
      (id = other.uid ∨ ∃ va, mapGet self.vectorMap id = some va ∧ vb ≤ va) := by
  unfold VectorClock.readyKeyOk
  by_cases hid : id = other.uid
  · simp [hid]
  · cases ha : mapGet self.vectorMap id with
    | none =>
        simp [hid, mapHas, ha, hb]
    | some va =>
        simp [hid, mapHas, ha, hb, VectorClock.jsLt]

/-- C1 (amended): `isready` returns true iff the receiver's map has an entry
for the sender that is exactly one below the sender's own entry in the
received clock — a receiver without an entry for the sender is never ready —
and, for every other key of the received clock, the receiver's map has an
entry at least as large; a key of the received clock missing from the
receiver's map also makes it not ready (absence does not count as 0). -/
theorem vectorClock_isready_iff (self other : VectorClock) :
    VectorClock.isready self other = true ↔
      ((∃ a c, mapGet self.vectorMap other.uid = some a ∧
          mapGet other.vectorMap other.uid = some c ∧ a + 1 = c)
        ∧ ∀ k vb, k ≠ other.uid → mapGet other.vectorMap k = some vb →
            ∃ va, mapGet self.vectorMap k = some va ∧ vb ≤ va) := by
  unfold VectorClock.isready
  by_cases hpred : VectorClock.jsEqPred (mapGet self.vectorMap other.uid)
      (mapGet other.vectorMap other.uid) = true
  · rw [if_pos hpred, List.all_eq_true]
    constructor
    · intro hloop
      refine ⟨(jsEqPred_eq_true_iff _ _).1 hpred, ?_⟩
      intro k vb hk hvb
      have hmem : k ∈ mapKeys other.vectorMap :=
        (mapGet_isSome_iff_mem_keys _ _).1 (by simp [hvb])
      have := (readyKeyOk_eq_true_iff self other k vb hvb).1 (hloop k hmem)
      exact this.resolve_left hk
    · intro ⟨_, hkeys⟩ k hmem
      cases hvb : mapGet other.vectorMap k with
      | none =>
          have hsome : (mapGet other.vectorMap k).isSome :=
            (mapGet_isSome_iff_mem_keys _ _).2 hmem
          rw [hvb] at hsome
          exact absurd hsome (by simp)
      | some vb =>
          rw [readyKeyOk_eq_true_iff self other k vb hvb]
          by_cases hk : k = other.uid
          · exact Or.inl hk
          · exact Or.inr (hkeys k vb hk hvb)
  · rw [if_neg hpred]
    constructor
    · intro h
      exact (Bool.false_ne_true h).elim
    · rintro ⟨hc, -⟩
      exact absurd ((jsEqPred_eq_true_iff _ _).2 hc) hpred

/-- C1 counterexample: with receiver `R` = `{uid: "r", map: {"r" ↦ 0}}` and
received clock `T` = `{uid: "s", map: {"s" ↦ 1}}` (sender "s", counter 1),
the claim's condition holds — `R`'s absent entry for "s", counted as 0,
equals `1 − 1`, and `T` has no other keys — yet `isready` returns false,
because `R.vectorMap.get("s")` is `undefined`, which is strictly unequal to
the number `0`. -/
theorem vectorClock_isready_claim_counterexample :
    ((mapGet (VectorClock.mk "r" [("r", 0)]).vectorMap "s").getD 0 + 1 =
        (mapGet (VectorClock.mk "s" [("s", 1)]).vectorMap "s").getD 0)
    ∧ (∀ k ∈ mapKeys (VectorClock.mk "s" [("s", 1)]).vectorMap, k ≠ "s" →
        (mapGet (VectorClock.mk "s" [("s", 1)]).vectorMap k).getD 0 ≤
          (mapGet (VectorClock.mk "r" [("r", 0)]).vectorMap k).getD 0)
    ∧ VectorClock.isready (VectorClock.mk "r" [("r", 0)])
        (VectorClock.mk "s" [("s", 1)]) = false := by
  decide

theorem lwwReceive_concurrent_case {V : Type} [DecidableEq V] (st : LwwState V)
    (ts : CausalTimestamp) (msg : LwwMessage V) (s : String) (t : ℤ)
    (hsender : st.sender = some s) (htime : st.time = some t)
    (hconc : lwwCausallyAtLeast ts s st.counter = false) :
    (lwwReceive st ts msg).1 =
      if msg.time > t ∨ (msg.time = t ∧ ts.sender > s) then
        ⟨msg.value, some ts.sender, (ts.senderCounter : ℤ), some msg.time⟩
      else st := by
  unfold lwwReceive
  rw [hsender, htime]
  simp only [hconc, jsTimeGt, jsTimeEq, jsSenderGt, Bool.false_eq_true, if_false]
  by_cases h1 : msg.time > t
  · simp [h1]
  · by_cases h2 : msg.time = t
    · by_cases h3 : ts.sender > s
      · simp [h1, h2, h3]
      · simp [h1, h2, h3]
    · simp [h1, h2]

theorem lwwReceive_initial {V : Type} [DecidableEq V] (v₀ : V)
    (ts : CausalTimestamp) (msg : LwwMessage V) :
    (lwwReceive (LwwState.initial v₀) ts msg).1 =
      ⟨msg.value, some ts.sender, (ts.senderCounter : ℤ), some msg.time⟩ :=
  rfl

/-- C2: for a write delivered to `LwwRegisterBase.receive` that is not
causally after the stored write, the incoming value overwrites the stored one
iff its wall-clock time is higher or the times are equal and its sender is
lexicographically greater; hence the two delivery orders of two concurrent
writes from distinct senders yield the same register value — the write with
the higher wall-clock time, sender order breaking ties. -/
theorem lwwRegister_concurrent_lastWriterWins {V : Type} [DecidableEq V] :
    (∀ (st : LwwState V) (ts : CausalTimestamp) (msg : LwwMessage V)
        (s : String) (t : ℤ),
      st.sender = some s → st.time = some t →
      lwwCausallyAtLeast ts s st.counter = false →
        (lwwReceive st ts msg).1 =
          if msg.time > t ∨ (msg.time = t ∧ ts.sender > s) then
            ⟨msg.value, some ts.sender, (ts.senderCounter : ℤ), some msg.time⟩
          else st)
    ∧ (∀ (v₀ : V) (ts₁ ts₂ : CausalTimestamp) (m₁ m₂ : LwwMessage V),
      ts₁.sender ≠ ts₂.sender →
      lwwCausallyAtLeast ts₂ ts₁.sender ((ts₁.senderCounter : ℤ)) = false →
      lwwCausallyAtLeast ts₁ ts₂.sender ((ts₂.senderCounter : ℤ)) = false →
        (lwwReceive (lwwReceive (LwwState.initial v₀) ts₁ m₁).1 ts₂ m₂).1.value =
          (lwwReceive (lwwReceive (LwwState.initial v₀) ts₂ m₂).1 ts₁ m₁).1.value
        ∧ (lwwReceive (lwwReceive (LwwState.initial v₀) ts₁ m₁).1 ts₂ m₂).1.value =
            (if m₁.time > m₂.time then m₁.value
             else if m₂.time > m₁.time then m₂.value
             else if ts₁.sender > ts₂.sender then m₁.value else m₂.value)) := by
  constructor
  · exact fun st ts msg s t h1 h2 h3 =>
      lwwReceive_concurrent_case st ts msg s t h1 h2 h3
  · intro v₀ ts₁ ts₂ m₁ m₂ hne hc21 hc12
    rw [lwwReceive_initial v₀ ts₁ m₁, lwwReceive_initial v₀ ts₂ m₂]
    rw [lwwReceive_concurrent_case
        ⟨m₁.value, some ts₁.sender, (ts₁.senderCounter : ℤ), some m₁.time⟩
        ts₂ m₂ ts₁.sender m₁.time rfl rfl hc21,
      lwwReceive_concurrent_case
        ⟨m₂.value, some ts₂.sender, (ts₂.senderCounter : ℤ), some m₂.time⟩
        ts₁ m₁ ts₂.sender m₂.time rfl rfl hc12]
    rcases lt_trichotomy m₁.time m₂.time with hlt | heq | hgt
    · have h21 : ¬ m₁.time > m₂.time := not_lt_of_lt hlt
      have hne2 : ¬ m₁.time = m₂.time := ne_of_lt hlt
      have hne2' : ¬ m₂.time = m₁.time := fun h => hne2 h.symm
      simp [hlt, h21, hne2, hne2']
    · rcases lt_or_gt_of_ne hne with hs | hs
      · have hs' : ¬ ts₁.sender > ts₂.sender := not_lt_of_lt hs
        simp [heq, lt_irrefl, hs, hs']
      · have hs' : ¬ ts₂.sender > ts₁.sender := not_lt_of_lt hs
        simp [heq, lt_irrefl, hs, hs']
    · have h12 : ¬ m₂.time > m₁.time := not_lt_of_lt hgt
      have hne2 : ¬ m₂.time = m₁.time := ne_of_lt hgt
      have hne2' : ¬ m₁.time = m₂.time := fun h => hne2 h.symm
      simp [hgt, h12, hne2, hne2']

/-- C2 witness: replica "aaa" writes "A" at time 5, replica "bbb"
concurrently writes "B" at time 7; both delivery orders end at "B", the
higher-timestamped write. -/
theorem lwwRegister_concurrent_lastWriterWins_witness :
    (lwwReceive (lwwReceive (LwwState.initial "x") ⟨"aaa", 1, [], true⟩ ⟨"A", 5⟩).1
        ⟨"bbb", 1, [], false⟩ ⟨"B", 7⟩).1.value =
      (lwwReceive (lwwReceive (LwwState.initial "x") ⟨"bbb", 1, [], false⟩ ⟨"B", 7⟩).1
        ⟨"aaa", 1, [], true⟩ ⟨"A", 5⟩).1.value
    ∧ (lwwReceive (lwwReceive (LwwState.initial "x") ⟨"aaa", 1, [], true⟩ ⟨"A", 5⟩).1
        ⟨"bbb", 1, [], false⟩ ⟨"B", 7⟩).1.value =
        (if (5 : ℤ) > 7 then "A" else if (7 : ℤ) > 5 then "B"
         else if "aaa" > "bbb" then "A" else "B") :=
  lwwRegister_concurrent_lastWriterWins.2 "x" ⟨"aaa", 1, [], true⟩
    ⟨"bbb", 1, [], false⟩ ⟨"A", 5⟩ ⟨"B", 7⟩ (by decide) rfl rfl

/-- C5: a message routed by `YjsCrdtSet.receiveInternal` to a child name that
is not in the children map throws when the timestamp is local and is a
silent no-op — same state, no events — when it is remote. -/
theorem yjsCrdtSet_frozen_child {σ μ : Type} (ctor : String → σ)
    (decode : μ → YjsDecodedOp)
    (childReceive : σ → List String → CausalTimestamp → μ → σ)
    (st : YjsCrdtSetState σ) (targetPath : List String) (ts : CausalTimestamp)
    (message : μ) (hne : targetPath ≠ [])
    (habs : mapGet st.children (targetPath.getLast hne) = none) :
    (ts.isLocal = true →
      yjsReceiveInternal ctor decode childReceive st targetPath ts message =
        Except.error ("Operation performed on deleted " ++
          "(hence frozen) child of YjsCrdtSet, name: " ++ targetPath.getLast hne))
    ∧ (ts.isLocal = false →
      yjsReceiveInternal ctor decode childReceive st targetPath ts message =
        Except.ok (st, [])) := by
  cases targetPath with
  | nil => exact absurd rfl hne
  | cons x xs =>
      have habs' : mapGet st.children ((x :: xs).getLast (List.cons_ne_nil x xs)) =
          none := habs
      constructor
      · intro hl
        simp only [yjsReceiveInternal]
        rw [habs', hl]
        rfl
      · intro hl
        simp only [yjsReceiveInternal]
        rw [habs', hl]
        rfl

/-- C5 witness: a remote message for the absent child "child1" of an empty
`YjsCrdtSet` leaves the state unchanged and emits nothing. -/
theorem yjsCrdtSet_frozen_child_witness :
    yjsReceiveInternal (fun _ => ()) (fun m : YjsDecodedOp => m)
        (fun c _ _ _ => c) ⟨[]⟩ ["child1"] ⟨"a", 1, [], false⟩
        (YjsDecodedOp.delete "w") = Except.ok (⟨[]⟩, []) :=
  (yjsCrdtSet_frozen_child (fun _ => ()) (fun m : YjsDecodedOp => m)
    (fun c _ _ _ => c) ⟨[]⟩ ["child1"] ⟨"a", 1, [], false⟩
    (YjsDecodedOp.delete "w") (by decide) rfl).2 rfl

/-- C6: the name `receiveInternal` assigns to the child added by a "create"
message is `yjsChildName sender create`, a function of the creating op's
sender and create counter alone; two replicas in different states that apply
the same create message add the child under the same name and emit the same
events. -/
theorem yjsCrdtSet_create_name_deterministic {σ₁ σ₂ μ₁ μ₂ : Type}
    (ctor₁ : String → σ₁) (ctor₂ : String → σ₂)
    (decode₁ : μ₁ → YjsDecodedOp) (decode₂ : μ₂ → YjsDecodedOp)
    (cr₁ : σ₁ → List String → CausalTimestamp → μ₁ → σ₁)
    (cr₂ : σ₂ → List String → CausalTimestamp → μ₂ → σ₂)
    (st₁ : YjsCrdtSetState σ₁) (st₂ : YjsCrdtSetState σ₂)
    (ts₁ ts₂ : CausalTimestamp) (m₁ : μ₁) (m₂ : μ₂) (c : ℕ)
    (r₁ : YjsCrdtSetState σ₁ × List YjsEvent)
    (r₂ : YjsCrdtSetState σ₂ × List YjsEvent)
    (hs : ts₁.sender = ts₂.sender)
    (hd₁ : decode₁ m₁ = YjsDecodedOp.create c)
    (hd₂ : decode₂ m₂ = YjsDecodedOp.create c)
    (h₁ : yjsReceiveInternal ctor₁ decode₁ cr₁ st₁ [] ts₁ m₁ = Except.ok r₁)
    (h₂ : yjsReceiveInternal ctor₂ decode₂ cr₂ st₂ [] ts₂ m₂ = Except.ok r₂) :
    mapGet r₁.1.children (yjsChildName ts₁.sender c) = some (ctor₁ ts₁.sender)
    ∧ mapGet r₂.1.children (yjsChildName ts₁.sender c) = some (ctor₂ ts₂.sender)
    ∧ r₁.2 = [YjsEvent.valueInit (yjsChildName ts₁.sender c),
        YjsEvent.add (yjsChildName ts₁.sender c)]
    ∧ r₁.2 = r₂.2 := by
  simp only [yjsReceiveInternal, hd₁] at h₁
  simp only [yjsReceiveInternal, hd₂] at h₂
  rw [← hs] at h₂
  by_cases hh₁ : mapHas st₁.children (yjsChildName ts₁.sender c)
  · rw [if_pos hh₁] at h₁
    exact absurd h₁ (by simp)
  · rw [if_neg hh₁] at h₁
    by_cases hh₂ : mapHas st₂.children (yjsChildName ts₁.sender c)
    · rw [if_pos hh₂] at h₂
      exact absurd h₂ (by simp)
    · rw [if_neg hh₂] at h₂
      rw [Except.ok.injEq] at h₁ h₂
      subst h₁
      subst h₂
      refine ⟨?_, ?_, rfl, rfl⟩
      · show mapGet (mapSet st₁.children (yjsChildName ts₁.sender c)
            (ctor₁ ts₁.sender)) (yjsChildName ts₁.sender c) = _
        rw [mapGet_mapSet, if_pos rfl]
      · show mapGet (mapSet st₂.children (yjsChildName ts₁.sender c)
            (ctor₂ ts₁.sender)) (yjsChildName ts₁.sender c) = _
        rw [mapGet_mapSet, if_pos rfl, hs]

/-- C6 witness: two replicas — one with empty children, one already holding a
child "zzz" — apply the same create message `(sender "aaa", create 5)`
carried by different timestamps, and both add the child named
`yjsChildName "aaa" 5` with identical events. -/
theorem yjsCrdtSet_create_name_deterministic_witness :
    mapGet (mapSet ([] : List (String × Unit)) (yjsChildName "aaa" 5) ())
        (yjsChildName "aaa" 5) = some ()
    ∧ mapGet (mapSet [("zzz", ())] (yjsChildName "aaa" 5) ())
        (yjsChildName "aaa" 5) = some ()
    ∧ ([YjsEvent.valueInit (yjsChildName "aaa" 5),
        YjsEvent.add (yjsChildName "aaa" 5)] =
          [YjsEvent.valueInit (yjsChildName "aaa" 5),
            YjsEvent.add (yjsChildName "aaa" 5)])
    ∧ ([YjsEvent.valueInit (yjsChildName "aaa" 5),
        YjsEvent.add (yjsChildName "aaa" 5)] =
          [YjsEvent.valueInit (yjsChildName "aaa" 5),
            YjsEvent.add (yjsChildName "aaa" 5)]) :=
  yjsCrdtSet_create_name_deterministic
    (fun _ => ()) (fun _ => ()) (fun m : YjsDecodedOp => m)
    (fun m : YjsDecodedOp => m) (fun c _ _ _ => c) (fun c _ _ _ => c)
    ⟨[]⟩ ⟨[("zzz", ())]⟩ ⟨"aaa", 3, [], true⟩ ⟨"aaa", 9, [("q", 2)], false⟩
    (YjsDecodedOp.create 5) (YjsDecodedOp.create 5) 5
    (⟨mapSet [] (yjsChildName "aaa" 5) ()⟩,
      [YjsEvent.valueInit (yjsChildName "aaa" 5),
        YjsEvent.add (yjsChildName "aaa" 5)])
    (⟨mapSet [("zzz", ())] (yjsChildName "aaa" 5) ()⟩,
      [YjsEvent.valueInit (yjsChildName "aaa" 5),
        YjsEvent.add (yjsChildName "aaa" 5)])
    rfl rfl rfl rfl rfl

/-- C7: the round trip `CollabIDSerializer.deserialize ∘ serialize` does NOT
return a CollabID with the same namePath: `serialize` writes the `namePath`
property of a message whose only declared field is `collabIDPath`
(serializers.proto), so nothing reaches the wire and the deserialized
object's `namePath` is `undefined`. Evaluated here at the failing input
`{namePath: ["a"]}`. -/
theorem collabIDSerializer_roundtrip_loses_path :
    CollabIDSerializer.deserialize (CollabIDSerializer.serialize ⟨["a"]⟩) =
      ⟨none⟩
    ∧ (CollabIDSerializer.deserialize
        (CollabIDSerializer.serialize ⟨["a"]⟩)).namePath ≠ some ["a"] := by
  decide

/-- C8: `AbstractDoc.idOf` throws synchronously for a Collab whose runtime
differs from the document's and returns the runtime's CollabID — the
Collab's path — when they coincide. -/
theorem abstractDoc_idOf_fail_fast (doc : AbstractDoc) (collab : CollabNode) :
    (collab.runtime ≠ doc.runtime →
      doc.idOf collab =
        Except.error "idOf called with Collab from different AbstractDoc")
    ∧ (collab.runtime = doc.runtime →
      doc.idOf collab = Except.ok ⟨collab.namePath⟩) := by
  constructor
  · intro h
    unfold AbstractDoc.idOf
    rw [if_pos h]
  · intro h
    unfold AbstractDoc.idOf
    rw [if_neg (by simp [h])]
    rfl

/-- C8 witness: a Collab of runtime 2 makes `idOf` on a runtime-1 document
throw, while a Collab of runtime 1 gets its path back. -/
theorem abstractDoc_idOf_fail_fast_witness :
    (AbstractDoc.mk 1).idOf ⟨2, ["x"]⟩ =
      Except.error "idOf called with Collab from different AbstractDoc"
    ∧ (AbstractDoc.mk 1).idOf ⟨1, ["x"]⟩ = Except.ok ⟨["x"]⟩ :=
  ⟨(abstractDoc_idOf_fail_fast (AbstractDoc.mk 1) ⟨2, ["x"]⟩).1 (by decide),
    (abstractDoc_idOf_fail_fast (AbstractDoc.mk 1) ⟨1, ["x"]⟩).2 rfl⟩

theorem unzigzag64_zigzag64 (n : ℤ) (h : n.natAbs ≤ 2 ^ 53 - 1) :
    unzigzag64 (zigzag64 n) = n := by
  have h53 : (2 : ℕ) ^ 53 - 1 = 9007199254740991 := by norm_num
  have h64 : (2 : ℕ) ^ 64 = 18446744073709551616 := by norm_num
  rw [h53] at h
  unfold zigzag64 unzigzag64
  rw [h64]
  by_cases hn : (0 : ℤ) ≤ n
  · rw [if_pos hn]
    have h2 : (2 * n).toNat < 18446744073709551616 := by omega
    rw [Nat.mod_eq_of_lt h2]
    have heven : (2 * n).toNat % 2 = 0 := by omega
    rw [if_pos heven]
    omega
  · rw [if_neg hn]
    have h2 : (-2 * n - 1).toNat < 18446744073709551616 := by omega
    rw [Nat.mod_eq_of_lt h2]
    have hodd : ¬ (-2 * n - 1).toNat % 2 = 0 := by omega
    rw [if_neg hodd]
    omega

/-- C10: a safe integer survives the `DefaultSerializer` round trip exactly:
it is sent through the `sint64 intValue` field (zigzag-encoded without
wrap-around at this magnitude) and `int64AsNumber` converts it back exactly,
never through the lossy `doubleValue` branch. -/
theorem defaultSerializer_safeInteger_roundtrip (n : ℤ)
    (h : jsIsSafeInteger n = true) :
    defaultDeserializeNumber (defaultSerializeNumber n) = n := by
  unfold defaultSerializeNumber
  rw [if_pos h]
  show int64AsNumber (unzigzag64 (zigzag64 n)) = n
  unfold int64AsNumber
  exact unzigzag64_zigzag64 n (of_decide_eq_true h)

/-- C10 witness: the most negative safe integer `−(2^53 − 1)` round-trips
exactly. -/
theorem defaultSerializer_safeInteger_roundtrip_witness :
    defaultDeserializeNumber (defaultSerializeNumber (-(2 ^ 53 - 1))) =
      -(2 ^ 53 - 1) :=
  defaultSerializer_safeInteger_roundtrip (-(2 ^ 53 - 1)) (by decide)

end Collabs
